/-
Verification of the MataMind pipeline runner (src/scripts/main_pipeline_runner.py)
against its natural-language specification.

Shallow embedding notes:
- The filesystem is modelled by `FS`: whether the configured artifact directory
  exists and the directory's entries (name and modification time).  The script
  is invoked with the scripts directory as working directory, so
  `os.path.getmtime` on a bare name from `os.listdir(directory)` resolves to the
  entry's mtime in that directory; `mtimeOf` models this.
- Python exceptions are the inductive `PyErr` (RuntimeError, FileNotFoundError,
  and generic OSError; in Python FileNotFoundError is a distinct subclass of
  OSError, so the constructors are distinct).
- `subprocess.run` behaviour is supplied by an environment `Env`: for each
  script, either a spawn failure (an exception) or an exit record with return
  code, stdout and stderr.  Wall-clock time is modelled as natural-number
  seconds: each completed spawn advances the clock by `Env.duration script`.
- `logging` with handlers `[FileHandler "pipeline_log.txt" (mode w),
  StreamHandler]` at level INFO is modelled by `logConfig`; a run's emitted
  records are collected as a list of `LogEntry`.
- `run_analysis_and_visualization` is analysis/visualization code outside the
  runner's scope (it prints rather than logs); it is modelled as an opaque
  environment effect `Env.analysisViz` that either returns or raises.
-/
import Mathlib

namespace PipelineRunner

/-- Logging severity levels used by the runner (logging.INFO / logging.ERROR). -/
inductive Level where
  | info
  | error
deriving DecidableEq, Repr

/-- Numeric value of a logging level, as in the Python logging module. -/
def levelNum : Level → Nat
  | .info => 20
  | .error => 40

/-- One record emitted through the logging module. -/
structure LogEntry where
  level : Level
  msg : String
deriving DecidableEq, Repr

/-- Python exceptions that the runner can raise or observe.
FileNotFoundError is a proper subclass of OSError in Python, hence a
separate constructor from the generic I/O failure. -/
inductive PyErr where
  | runtimeError (msg : String)
  | fileNotFoundError (msg : String)
  | osError (msg : String)
deriving DecidableEq, Repr

/-- Result of a completed `subprocess.run` call: exit status and captured
streams (capture_output=True, text=True). -/
structure ProcResult where
  returncode : Int
  stdout : String
  stderr : String
deriving DecidableEq, Repr

/-- The spec's ExecutionResult record (§3): one per stage actually attempted. -/
structure ExecutionResult where
  stage_name : String
  exit_code : Int
  stdout_text : String
  stderr_text : String
  duration : Nat
deriving DecidableEq, Repr

/-- One entry of the configured artifact directory: file name and
modification time. -/
structure FileEntry where
  name : String
  mtime : Nat
deriving DecidableEq, Repr

/-- Filesystem state visible to the runner: whether the configured directory
exists, and its entries (in `os.listdir` order) when it does. -/
structure FS where
  dirExists : Bool
  listing : List FileEntry
deriving DecidableEq, Repr

/-- Behaviour of the external world for one run: what `subprocess.run` does
for each script (spawn failure or exit record), how long each completed
spawn takes, and what the out-of-scope analysis/visualization step does. -/
structure Env where
  spawn : String → Except PyErr ProcResult
  duration : String → Nat
  analysisViz : Except PyErr Unit

/-- Observable control events of a run: a dependency check for a stage (with
its outcome) and the spawn of a stage's external process. -/
inductive Ev where
  | depCheck (script : String) (passed : Bool)
  | spawn (script : String)
deriving DecidableEq, Repr

/-- Run status from the spec's PipelineRun state machine (§4.4). -/
inductive RunStatus where
  | Completed
  | Failed
deriving DecidableEq, Repr

/-- The spec's PipelineRun aggregate (§3). -/
structure PipelineRun where
  start_time : Nat
  end_time : Nat
  results : List ExecutionResult
  status : RunStatus
deriving DecidableEq, Repr

/-- The configured artifact directory (module-level constant in the source). -/
def directory : String := "/Users/nooz/MetaViz/MataMind/scripts/"

/-- The log file opened by logging.basicConfig. -/
def log_file : String := "pipeline_log.txt"

/-- A logging handler: the durable FileHandler (with its open mode) or the
console StreamHandler. -/
inductive Handler where
  | fileHandler (path : String) (mode : String)
  | streamHandler
deriving DecidableEq, Repr

/-- The logging configuration installed once at module load by
logging.basicConfig. -/
structure LoggerConfig where
  level : Nat
  handlers : List Handler
deriving DecidableEq, Repr

/-- The runner's logging configuration: level INFO, a file handler on
pipeline_log.txt opened with mode w, and a console stream handler. -/
def logConfig : LoggerConfig :=
  { level := 20
    handlers := [Handler.fileHandler log_file "w", Handler.streamHandler] }

/-- The handlers a record is dispatched to: all configured handlers when the
record's level passes the configured threshold. -/
def dispatch (cfg : LoggerConfig) (e : LogEntry) : List Handler :=
  if cfg.level ≤ levelNum e.level then cfg.handlers else []

/-- The ordered stage list (scripts_to_run in the source). -/
def scripts_to_run : List String :=
  ["./load_and_preprocess.py",
   "./extract_epochs.py",
   "./ica_analysis.py",
   "./erp_analysis.py",
   "./psd_analysis.py",
   "./visualizations.py",
   "./source_localization.py"]

/-- Python str.endswith: the argument is a suffix of the string (stated on
the strings' character lists, which the kernel can evaluate). -/
def endswith (s extension : String) : Bool :=
  extension.data.isSuffixOf s.data

/-- os.listdir(directory): the entry names when the directory exists, a
FileNotFoundError otherwise. -/
def listdir (fs : FS) : Except PyErr (List String) :=
  if fs.dirExists then .ok (fs.listing.map FileEntry.name)
  else .error (.fileNotFoundError ("No such file or directory: " ++ directory))

/-- os.path.getmtime of a bare file name, resolved in the scripts directory
(the working directory of the intended invocation). -/
def mtimeOf (fs : FS) (n : String) : Nat :=
  ((fs.listing.find? (fun e => e.name == n)).map FileEntry.mtime).getD 0

/-- Python's max(x :: xs, key) : scans left to right keeping the current
maximum, replacing it only on a strictly greater key — so among equal keys
the first element encountered wins. -/
def pyMax (key : String → Nat) (x : String) (xs : List String) : String :=
  xs.foldl (fun best y => if key best < key y then y else best) x

/-- os.path.exists for a path under the configured directory: true exactly
when the directory exists and some entry's joined path equals it. -/
def path_exists (fs : FS) (p : String) : Bool :=
  fs.dirExists && fs.listing.any (fun e => directory ++ e.name == p)

/-- get_latest_file from the source: list the directory, keep names ending
with the extension, raise FileNotFoundError when none match, otherwise join
the directory with the mtime-maximal name. -/
def get_latest_file (fs : FS) (extension : String) : Except PyErr String :=
  match listdir fs with
  | .error e => .error e
  | .ok names =>
    match names.filter (fun f => endswith f extension) with
    | [] => .error (.fileNotFoundError
        ("No files with extension " ++ extension ++ " found."))
    | f :: fsRest => .ok (directory ++ pyMax (mtimeOf fs) f fsRest)

/-- check_dependencies from the source: per-script artifact preconditions. -/
def check_dependencies (fs : FS) (script : String) : Except PyErr Unit :=
  if script == "./extract_epochs.py" then
    match get_latest_file fs "_filtered_raw.fif" with
    | .error e => .error e
    | .ok filtered_file =>
      if !(path_exists fs filtered_file) then
        .error (.runtimeError ("Filtered EEG data (" ++ filtered_file ++
          ") not found. Cannot run extract_epochs.py"))
      else .ok ()
  else if script == "./ica_analysis.py" then
    match get_latest_file fs "_epochs-epo.fif" with
    | .error e => .error e
    | .ok epochs_file =>
      if !(path_exists fs epochs_file) then
        .error (.runtimeError ("Epochs data (" ++ epochs_file ++
          ") not found. Cannot run ica_analysis.py"))
      else .ok ()
  else if script == "./erp_analysis.py" || script == "./psd_analysis.py" then
    let ica_cleaned_file := directory ++ "cleaned_subject_raw.fif"
    if !(path_exists fs ica_cleaned_file) then
      .error (.runtimeError ("ICA cleaned data (" ++ ica_cleaned_file ++
        ") not found. Cannot run " ++ script))
    else .ok ()
  else .ok ()

/-- Log message announcing a stage start. -/
def startMsg (s : String) : String := "--- Start running script: " ++ s ++ " ---"

/-- Log message for a stage that finished successfully, with its duration. -/
def finishedMsg (s : String) (t : Nat) : String :=
  "--- Finished running script: " ++ s ++ " in " ++ toString t ++ " seconds ---"

/-- Message of the RuntimeError raised for a nonzero stage exit. -/
def failedMsg (s : String) : String := "Script " ++ s ++ " failed to run."

/-- Log message for a caught RuntimeError in main. -/
def stoppedMsg (m : String) : String :=
  "Pipeline execution stopped due to an error: " ++ m

/-- Log message for a fully successful pipeline. -/
def successMsg : String := "Pipeline executed successfully."

/-- Final summary log message with the total duration. -/
def totalMsg (d : Nat) : String :=
  "Total pipeline execution time: " ++ toString d

/-- What one run_script call produces: the records it logged, the execution
result when the process ran to termination, and the exception it raised
(spawn failure, or the RuntimeError for a nonzero exit), if any. -/
structure ExecOut where
  logs : List LogEntry
  result : Option ExecutionResult
  err : Option PyErr
deriving Repr

/-- run_script from the source: log the start line, spawn the process
(propagating a spawn failure), log the captured stdout, then either log the
captured stderr and raise RuntimeError on a nonzero exit, or log the
finished line with the duration. -/
def run_script (env : Env) (script_name : String) : ExecOut :=
  let startLog : LogEntry := ⟨.info, startMsg script_name⟩
  match env.spawn script_name with
  | .error e => ⟨[startLog], none, some e⟩
  | .ok r =>
    let execution_time := env.duration script_name
    let res : ExecutionResult :=
      ⟨script_name, r.returncode, r.stdout, r.stderr, execution_time⟩
    if r.returncode ≠ 0 then
      ⟨[startLog, ⟨.info, r.stdout⟩, ⟨.error, r.stderr⟩], some res,
        some (.runtimeError (failedMsg script_name))⟩
    else
      ⟨[startLog, ⟨.info, r.stdout⟩,
        ⟨.info, finishedMsg script_name execution_time⟩], some res, none⟩

/-- What the stage loop of main produces: collected results, emitted log
records, control events, elapsed seconds, and the first exception, if any. -/
structure LoopOut where
  results : List ExecutionResult
  logs : List LogEntry
  events : List Ev
  elapsed : Nat
  err : Option PyErr
deriving Repr

/-- The stage loop of main: for each script in order, run the dependency
check then the stage; stop at the first exception. -/
def runLoop (env : Env) (fs : FS) : List String → LoopOut
  | [] => ⟨[], [], [], 0, none⟩
  | s :: rest =>
    match check_dependencies fs s with
    | .error e => ⟨[], [], [.depCheck s false], 0, some e⟩
    | .ok _ =>
      let ex := run_script env s
      let dt := ((ex.result.map ExecutionResult.duration).getD 0)
      match ex.err with
      | some e =>
        ⟨ex.result.toList, ex.logs, [.depCheck s true, .spawn s], dt, some e⟩
      | none =>
        let out := runLoop env fs rest
        ⟨ex.result.toList ++ out.results, ex.logs ++ out.logs,
          .depCheck s true :: .spawn s :: out.events, dt + out.elapsed, out.err⟩

/-- What one whole run of main produces: the PipelineRun aggregate, the
emitted log records, the control events, and the exception that escaped
main uncaught (main catches only RuntimeError), if any. -/
structure MainOut where
  run : PipelineRun
  logs : List LogEntry
  events : List Ev
  uncaught : Option PyErr
deriving Repr

/-- The exception the body of the try block in main raises, if any: the first
stage-loop exception, else whatever the analysis/visualization step raises. -/
def raisedOf (env : Env) (fs : FS) (scripts : List String) : Option PyErr :=
  match (runLoop env fs scripts).err with
  | some e => some e
  | none =>
    match env.analysisViz with
    | .error e => some e
    | .ok _ => none

/-- main from the source, parameterized by the stage list it iterates:
record the start time, log the start line, run the stage loop (then the
analysis/visualization step), convert a caught RuntimeError into a logged
failure, let any other exception escape, and in all cases log the total
duration last. -/
def main_run (env : Env) (fs : FS) (t0 : Nat) (scripts : List String) :
    MainOut :=
  let out := runLoop env fs scripts
  let raised : Option PyErr := raisedOf env fs scripts
  let end_time := t0 + out.elapsed
  let total_duration := end_time - t0
  let startLog : LogEntry := ⟨.info, "Pipeline execution started."⟩
  let finalLog : LogEntry := ⟨.info, totalMsg total_duration⟩
  match raised with
  | none =>
    ⟨⟨t0, end_time, out.results, .Completed⟩,
      startLog :: out.logs ++ [⟨.info, successMsg⟩, finalLog],
      out.events, none⟩
  | some (.runtimeError m) =>
    ⟨⟨t0, end_time, out.results, .Failed⟩,
      startLog :: out.logs ++ [⟨.error, stoppedMsg m⟩, finalLog],
      out.events, none⟩
  | some e =>
    ⟨⟨t0, end_time, out.results, .Failed⟩,
      startLog :: out.logs ++ [finalLog],
      out.events, some e⟩

/-- main applied to the source's fixed stage list. -/
def main (env : Env) (fs : FS) (t0 : Nat) : MainOut :=
  main_run env fs t0 scripts_to_run

/-! ### Properties of pyMax (the semantics of Python max with a key) -/

lemma pyMax_cons (key : String → Nat) (x y : String) (ys : List String) :
    pyMax key x (y :: ys) = pyMax key (if key x < key y then y else x) ys := rfl

lemma pyMax_mem (key : String → Nat) :
    ∀ (xs : List String) (x : String), pyMax key x xs ∈ x :: xs := by
  intro xs
  induction xs with
  | nil => intro x; simp [pyMax]
  | cons y ys ih =>
    intro x
    rw [pyMax_cons]
    rcases List.mem_cons.mp (ih (if key x < key y then y else x)) with h | h
    · rw [h]
      split
      · exact List.mem_cons_of_mem _ (List.mem_cons_self _ _)
      · exact List.mem_cons_self _ _
    · exact List.mem_cons_of_mem _ (List.mem_cons_of_mem _ h)

lemma pyMax_le (key : String → Nat) :
    ∀ (xs : List String) (x z : String),
      z ∈ x :: xs → key z ≤ key (pyMax key x xs) := by
  intro xs
  induction xs with
  | nil =>
    intro x z hz
    rw [List.mem_singleton] at hz
    subst hz
    simp [pyMax]
  | cons y ys ih =>
    intro x z hz
    rw [pyMax_cons]
    have hx : key x ≤ key (if key x < key y then y else x) := by
      split
      · omega
      · exact le_refl _
    have hy : key y ≤ key (if key x < key y then y else x) := by
      split
      · exact le_refl _
      · omega
    have hhead := ih (if key x < key y then y else x)
      (if key x < key y then y else x) (List.mem_cons_self _ _)
    rcases List.mem_cons.mp hz with rfl | hz'
    · exact le_trans hx hhead
    · rcases List.mem_cons.mp hz' with rfl | hz''
      · exact le_trans hy hhead
      · exact ih _ z (List.mem_cons_of_mem _ hz'')

lemma pyMax_first (key : String → Nat) :
    ∀ (xs : List String) (x : String), ∃ l₁ l₂,
      x :: xs = l₁ ++ pyMax key x xs :: l₂ ∧
      ∀ z ∈ l₁, key z < key (pyMax key x xs) := by
  intro xs
  induction xs with
  | nil => intro x; exact ⟨[], [], by simp [pyMax], by simp⟩
  | cons y ys ih =>
    intro x
    rw [pyMax_cons]
    by_cases h : key x < key y
    · rw [if_pos h]
      obtain ⟨l₁, l₂, heq, hlt⟩ := ih y
      refine ⟨x :: l₁, l₂, ?_, ?_⟩
      · rw [List.cons_append, ← heq]
      · intro z hz
        rcases List.mem_cons.mp hz with rfl | hz'
        · exact lt_of_lt_of_le h (pyMax_le key ys y y (List.mem_cons_self _ _))
        · exact hlt z hz'
    · rw [if_neg h]
      obtain ⟨l₁, l₂, heq, hlt⟩ := ih x
      cases l₁ with
      | nil =>
        rw [List.nil_append] at heq
        have hx := (List.cons.injEq _ _ _ _).mp heq
        refine ⟨[], y :: ys, ?_, by simp⟩
        rw [List.nil_append, ← hx.1]
      | cons a l₁x =>
        rw [List.cons_append] at heq
        have hx := (List.cons.injEq _ _ _ _).mp heq
        have hxmem : key x < key (pyMax key x ys) := by
          apply hlt
          rw [hx.1]
          exact List.mem_cons_self _ _
        refine ⟨x :: y :: l₁x, l₂, ?_, ?_⟩
        · rw [List.cons_append, List.cons_append, ← hx.2]
        · intro z hz
          rcases List.mem_cons.mp hz with rfl | hz'
          · exact hxmem
          rcases List.mem_cons.mp hz' with rfl | hz''
          · exact lt_of_le_of_lt (by omega : key z ≤ key x) hxmem
          · exact hlt z (List.mem_cons_of_mem a hz'')

/-! ### Properties of the Artifact Locator -/

lemma get_latest_file_filter_nil (fs : FS) (S : String)
    (hdir : fs.dirExists = true)
    (hnone : ∀ e ∈ fs.listing, endswith e.name S = false) :
    get_latest_file fs S =
      .error (.fileNotFoundError ("No files with extension " ++ S ++ " found.")) := by
  have hfil : (fs.listing.map FileEntry.name).filter (fun n => endswith n S) = [] := by
    apply List.filter_eq_nil_iff.mpr
    intro a ha
    obtain ⟨e, he, rfl⟩ := List.mem_map.mp ha
    show ¬ endswith e.name S = true
    rw [hnone e he]
    exact Bool.false_ne_true
  simp only [get_latest_file, listdir, hdir, if_true, hfil]

lemma get_latest_file_error_shape (fs : FS) (ext : String) (e : PyErr)
    (h : get_latest_file fs ext = .error e) : ∃ m, e = .fileNotFoundError m := by
  by_cases hd : fs.dirExists
  · simp only [get_latest_file, listdir, hd, if_true] at h
    cases hfil : (fs.listing.map FileEntry.name).filter (fun f => endswith f ext) with
    | nil =>
      rw [hfil] at h
      simp only [Except.error.injEq] at h
      exact ⟨_, h.symm⟩
    | cons f fsRest =>
      rw [hfil] at h
      simp at h
  · simp only [get_latest_file, listdir, hd, Bool.false_eq_true, if_false,
      Except.error.injEq] at h
    exact ⟨_, h.symm⟩

lemma get_latest_file_ok_exists (fs : FS) (ext p : String)
    (h : get_latest_file fs ext = .ok p) : path_exists fs p = true := by
  by_cases hd : fs.dirExists
  · simp only [get_latest_file, listdir, hd, if_true] at h
    cases hfil : (fs.listing.map FileEntry.name).filter (fun f => endswith f ext) with
    | nil => rw [hfil] at h; simp at h
    | cons f fsRest =>
      rw [hfil] at h
      simp only [Except.ok.injEq] at h
      have hmem : pyMax (mtimeOf fs) f fsRest ∈ f :: fsRest := pyMax_mem _ fsRest f
      rw [← hfil] at hmem
      have hmem2 : pyMax (mtimeOf fs) f fsRest ∈ fs.listing.map FileEntry.name :=
        List.mem_of_mem_filter hmem
      obtain ⟨en, hen, hname⟩ := List.mem_map.mp hmem2
      simp only [path_exists, hd, Bool.true_and, List.any_eq_true]
      exact ⟨en, hen, by rw [hname, h]; exact beq_self_eq_true p⟩
  · simp [get_latest_file, listdir, hd] at h

/-- C3: for every directory state and suffix, the Artifact Locator filters the
directory listing to names ending with the suffix and, when that set is
non-empty, returns the directory-joined name with the maximum modification
time; among equal modification times the entry that comes first in the
directory listing wins (every strictly earlier candidate has a strictly
smaller mtime), not the lexicographically greatest name. -/
theorem c3_locator_max_mtime (fs : FS) (suffix f : String) (fsRest : List String)
    (hdir : fs.dirExists = true)
    (hfilter : (fs.listing.map FileEntry.name).filter (fun n => endswith n suffix)
      = f :: fsRest) :
    ∃ l₁ l₂,
      get_latest_file fs suffix = .ok (directory ++ pyMax (mtimeOf fs) f fsRest) ∧
      f :: fsRest = l₁ ++ pyMax (mtimeOf fs) f fsRest :: l₂ ∧
      (∀ z ∈ f :: fsRest, mtimeOf fs z ≤ mtimeOf fs (pyMax (mtimeOf fs) f fsRest)) ∧
      (∀ z ∈ l₁, mtimeOf fs z < mtimeOf fs (pyMax (mtimeOf fs) f fsRest)) := by
  obtain ⟨l₁, l₂, heq, hlt⟩ := pyMax_first (mtimeOf fs) fsRest f
  refine ⟨l₁, l₂, ?_, heq, ?_, hlt⟩
  · simp only [get_latest_file, listdir, hdir, if_true, hfilter]
  · intro z hz
    exact pyMax_le (mtimeOf fs) fsRest f z hz

/-- Scenario D directory state: run_epochs-epo.fif at mtime 1 and
run2_epochs-epo.fif at mtime 2. -/
def fsD : FS := ⟨true, [⟨"run_epochs-epo.fif", 1⟩, ⟨"run2_epochs-epo.fif", 2⟩]⟩

/-- C3 witness: on the Scenario D directory the locator hypotheses hold and
the theorem applies; moreover the locator returns the run2 file. -/
theorem c3_locator_witness :
    (∃ l₁ l₂,
      get_latest_file fsD "_epochs-epo.fif" =
        .ok (directory ++ pyMax (mtimeOf fsD) "run_epochs-epo.fif" ["run2_epochs-epo.fif"]) ∧
      "run_epochs-epo.fif" :: ["run2_epochs-epo.fif"] =
        l₁ ++ pyMax (mtimeOf fsD) "run_epochs-epo.fif" ["run2_epochs-epo.fif"] :: l₂ ∧
      (∀ z ∈ "run_epochs-epo.fif" :: ["run2_epochs-epo.fif"],
        mtimeOf fsD z ≤ mtimeOf fsD (pyMax (mtimeOf fsD) "run_epochs-epo.fif" ["run2_epochs-epo.fif"])) ∧
      (∀ z ∈ l₁,
        mtimeOf fsD z < mtimeOf fsD (pyMax (mtimeOf fsD) "run_epochs-epo.fif" ["run2_epochs-epo.fif"]))) ∧
    get_latest_file fsD "_epochs-epo.fif" = .ok (directory ++ "run2_epochs-epo.fif") :=
  ⟨c3_locator_max_mtime fsD "_epochs-epo.fif" "run_epochs-epo.fif" ["run2_epochs-epo.fif"]
    rfl (by decide), by rfl⟩

/-- Lexicographic order on code-point lists, the order Python uses to compare
strings. -/
def lexLt : List Char → List Char → Bool
  | [], [] => false
  | [], _ :: _ => true
  | _ :: _, [] => false
  | c :: cs, d :: ds => if c < d then true else if d < c then false else lexLt cs ds

/-- Directory state with two suffix matches of equal modification time, the
lexicographically smaller name listed first. -/
def fsTie : FS := ⟨true, [⟨"a_epochs-epo.fif", 5⟩, ⟨"b_epochs-epo.fif", 5⟩]⟩

/-- C3 counterexample: with two matching files of equal mtime the locator
returns the first-listed name a_epochs-epo.fif, not the lexicographically
greatest name b_epochs-epo.fif, refuting the claimed tie-break rule. -/
theorem c3_tiebreak_counterexample :
    get_latest_file fsTie "_epochs-epo.fif" = .ok (directory ++ "a_epochs-epo.fif") ∧
    mtimeOf fsTie "a_epochs-epo.fif" = mtimeOf fsTie "b_epochs-epo.fif" ∧
    endswith "b_epochs-epo.fif" "_epochs-epo.fif" = true ∧
    lexLt "a_epochs-epo.fif".data "b_epochs-epo.fif".data = true ∧
    directory ++ "a_epochs-epo.fif" ≠ directory ++ "b_epochs-epo.fif" := by
  refine ⟨by rfl, by rfl, by rfl, by decide, by decide⟩

/-- C6: if the directory exists and no entry name ends with the suffix, the
locator returns the explicit FileNotFoundError NotFound outcome, whose
constructor is distinct from a generic OSError I/O failure and from a
RuntimeError. -/
theorem c6_not_found (fs : FS) (S : String)
    (hdir : fs.dirExists = true)
    (hnone : ∀ e ∈ fs.listing, endswith e.name S = false) :
    get_latest_file fs S =
      .error (.fileNotFoundError ("No files with extension " ++ S ++ " found.")) ∧
    (∀ m mx, PyErr.fileNotFoundError m ≠ PyErr.osError mx) ∧
    (∀ m mx, PyErr.fileNotFoundError m ≠ PyErr.runtimeError mx) :=
  ⟨get_latest_file_filter_nil fs S hdir hnone,
   fun _ _ h => PyErr.noConfusion h,
   fun _ _ h => PyErr.noConfusion h⟩

/-- C6 witness: a concrete directory with one non-matching entry. -/
theorem c6_not_found_witness :
    get_latest_file ⟨true, [⟨"x.txt", 3⟩]⟩ "_filtered_raw.fif" =
      .error (.fileNotFoundError ("No files with extension " ++ "_filtered_raw.fif" ++ " found.")) ∧
    (∀ m mx, PyErr.fileNotFoundError m ≠ PyErr.osError mx) ∧
    (∀ m mx, PyErr.fileNotFoundError m ≠ PyErr.runtimeError mx) :=
  c6_not_found ⟨true, [⟨"x.txt", 3⟩]⟩ "_filtered_raw.fif" rfl (by decide)

/-- C10: whenever the Artifact Locator returns a path it is the directory
joined with a listed entry name, so the path exists on the unchanged
filesystem; hence for the extract_epochs and ica_analysis stages the
not-exists RuntimeError branch of check_dependencies is unreachable and the
check can only fail with the FileNotFoundError raised by the locator. -/
theorem c10_check_unreachable (fs : FS) :
    (∀ ext p, get_latest_file fs ext = .ok p → path_exists fs p = true) ∧
    (∀ script, (script = "./extract_epochs.py" ∨ script = "./ica_analysis.py") →
      ∀ e, check_dependencies fs script = .error e → ∃ m, e = .fileNotFoundError m) := by
  constructor
  · intro ext p h
    exact get_latest_file_ok_exists fs ext p h
  · rintro script (rfl | rfl) e he
    · simp only [check_dependencies] at he
      rw [if_pos (by decide)] at he
      cases hg : get_latest_file fs "_filtered_raw.fif" with
      | error ex =>
        rw [hg] at he
        simp only [Except.error.injEq] at he
        subst he
        exact get_latest_file_error_shape fs _ ex hg
      | ok ff =>
        rw [hg] at he
        simp [get_latest_file_ok_exists fs _ _ hg] at he
    · simp only [check_dependencies] at he
      rw [if_neg (by decide), if_pos (by decide)] at he
      cases hg : get_latest_file fs "_epochs-epo.fif" with
      | error ex =>
        rw [hg] at he
        simp only [Except.error.injEq] at he
        subst he
        exact get_latest_file_error_shape fs _ ex hg
      | ok ff =>
        rw [hg] at he
        simp [get_latest_file_ok_exists fs _ _ hg] at he

/-- C10 witness: on Scenario D data the located epochs path exists, and on an
empty directory the ica_analysis check fails with the NotFound error. -/
theorem c10_check_unreachable_witness :
    path_exists fsD (directory ++ "run2_epochs-epo.fif") = true ∧
    (∃ m, PyErr.fileNotFoundError "No files with extension _epochs-epo.fif found."
      = PyErr.fileNotFoundError m) :=
  ⟨(c10_check_unreachable fsD).1 "_epochs-epo.fif" (directory ++ "run2_epochs-epo.fif") rfl,
   (c10_check_unreachable ⟨true, []⟩).2 "./ica_analysis.py" (Or.inr rfl)
     (.fileNotFoundError "No files with extension _epochs-epo.fif found.") rfl⟩

/-! ### The Stage Executor (run_script) -/

/-- Environment in which every stage exits with code 1 and writes boom to
stderr. -/
def envC9 : Env := ⟨fun _ => .ok ⟨1, "some output", "boom"⟩, fun _ => 2, .ok ()⟩

/-- C9 counterexample: a stage invocation that exits nonzero makes run_script
raise a RuntimeError (a thrown structural error) instead of returning the
nonzero exit only through the ExecutionResult to the controller. -/
theorem c9_raises_counterexample :
    (run_script envC9 "./erp_analysis.py").err =
      some (.runtimeError (failedMsg "./erp_analysis.py")) ∧
    (run_script envC9 "./erp_analysis.py").err ≠ none := by
  exact ⟨rfl, by decide⟩

/-- C9 amended: exit code 0 is the only success signal of the Stage Executor,
but on a nonzero exit the executor does not leave the decision to the
controller: it logs the captured stderr and itself raises a RuntimeError
(while still producing the ExecutionResult for the attempted stage). -/
theorem c9_exit_code_policy (env : Env) (s : String) (r : ProcResult)
    (h : env.spawn s = .ok r) :
    ((run_script env s).err = none ↔ r.returncode = 0) ∧
    (r.returncode = 0 →
      (run_script env s).result =
        some ⟨s, r.returncode, r.stdout, r.stderr, env.duration s⟩) ∧
    (r.returncode ≠ 0 →
      (run_script env s).err = some (.runtimeError (failedMsg s)) ∧
      (run_script env s).result =
        some ⟨s, r.returncode, r.stdout, r.stderr, env.duration s⟩ ∧
      LogEntry.mk .error r.stderr ∈ (run_script env s).logs) := by
  by_cases hrc : r.returncode = 0
  · simp [run_script, h, hrc]
  · simp [run_script, h, hrc]

/-- Environment in which every stage exits cleanly with code 0. -/
def envOk : Env := ⟨fun _ => .ok ⟨0, "ok out", ""⟩, fun _ => 1, .ok ()⟩

/-- C9 witness: the amended executor contract applied to a concrete clean
invocation. -/
theorem c9_exit_code_policy_witness :
    ((run_script envOk "./erp_analysis.py").err = none ↔ (0 : Int) = 0) ∧
    ((0 : Int) = 0 →
      (run_script envOk "./erp_analysis.py").result =
        some ⟨"./erp_analysis.py", 0, "ok out", "", 1⟩) ∧
    ((0 : Int) ≠ 0 →
      (run_script envOk "./erp_analysis.py").err =
        some (.runtimeError (failedMsg "./erp_analysis.py")) ∧
      (run_script envOk "./erp_analysis.py").result =
        some ⟨"./erp_analysis.py", 0, "ok out", "", 1⟩ ∧
      LogEntry.mk .error "" ∈ (run_script envOk "./erp_analysis.py").logs) :=
  c9_exit_code_policy envOk "./erp_analysis.py" ⟨0, "ok out", ""⟩ rfl

/-! ### Unfolding equations for the stage loop -/

lemma runLoop_cons_check_error (env : Env) (fs : FS) (s : String)
    (rest : List String) (e : PyErr) (h : check_dependencies fs s = .error e) :
    runLoop env fs (s :: rest) = ⟨[], [], [.depCheck s false], 0, some e⟩ := by
  simp only [runLoop, h]

lemma runLoop_cons_err (env : Env) (fs : FS) (s : String)
    (rest : List String) (e : PyErr) (hc : check_dependencies fs s = .ok ())
    (he : (run_script env s).err = some e) :
    runLoop env fs (s :: rest) =
      ⟨(run_script env s).result.toList, (run_script env s).logs,
        [.depCheck s true, .spawn s],
        ((run_script env s).result.map ExecutionResult.duration).getD 0,
        some e⟩ := by
  simp only [runLoop, hc, he]

lemma runLoop_cons_ok (env : Env) (fs : FS) (s : String)
    (rest : List String) (hc : check_dependencies fs s = .ok ())
    (he : (run_script env s).err = none) :
    runLoop env fs (s :: rest) =
      ⟨(run_script env s).result.toList ++ (runLoop env fs rest).results,
        (run_script env s).logs ++ (runLoop env fs rest).logs,
        .depCheck s true :: .spawn s :: (runLoop env fs rest).events,
        ((run_script env s).result.map ExecutionResult.duration).getD 0 +
          (runLoop env fs rest).elapsed,
        (runLoop env fs rest).err⟩ := by
  simp only [runLoop, hc, he]

/-! ### Event-trace lemmas for the Dependency Gate (claim C4) -/

lemma runLoop_spawn_mem (env : Env) (fs : FS) :
    ∀ (l : List String) (s : String), .spawn s ∈ (runLoop env fs l).events →
      check_dependencies fs s = .ok () := by
  intro l
  induction l with
  | nil => intro s h; simp [runLoop] at h
  | cons a rest ih =>
    intro s h
    cases hc : check_dependencies fs a with
    | error e =>
      rw [runLoop_cons_check_error env fs a rest e hc] at h
      simp at h
    | ok u =>
      cases u
      cases hex : (run_script env a).err with
      | some e2 =>
        rw [runLoop_cons_err env fs a rest e2 hc hex] at h
        simp at h
        subst h
        exact hc
      | none =>
        rw [runLoop_cons_ok env fs a rest hc hex] at h
        simp only [List.mem_cons] at h
        rcases h with h | h | h
        · exact absurd h (by simp)
        · simp only [Ev.spawn.injEq] at h
          subst h
          exact hc
        · exact ih s h

lemma runLoop_depCheck_false_mem (env : Env) (fs : FS) :
    ∀ (l : List String) (s : String),
      .depCheck s false ∈ (runLoop env fs l).events →
      ∃ e, check_dependencies fs s = .error e := by
  intro l
  induction l with
  | nil => intro s h; simp [runLoop] at h
  | cons a rest ih =>
    intro s h
    cases hc : check_dependencies fs a with
    | error e =>
      rw [runLoop_cons_check_error env fs a rest e hc] at h
      simp at h
      subst h
      exact ⟨e, hc⟩
    | ok u =>
      cases u
      cases hex : (run_script env a).err with
      | some e2 =>
        rw [runLoop_cons_err env fs a rest e2 hc hex] at h
        simp at h
      | none =>
        rw [runLoop_cons_ok env fs a rest hc hex] at h
        simp only [List.mem_cons] at h
        rcases h with h | h | h
        · simp at h
        · exact absurd h (by simp)
        · exact ih s h

lemma runLoop_spawn_pred (env : Env) (fs : FS) :
    ∀ (l : List String) (s : String) (i : Nat),
      (runLoop env fs l).events.get? i = some (.spawn s) →
      1 ≤ i ∧ (runLoop env fs l).events.get? (i - 1) = some (.depCheck s true) := by
  intro l
  induction l with
  | nil => intro s i h; simp [runLoop] at h
  | cons a rest ih =>
    intro s i h
    cases hc : check_dependencies fs a with
    | error e =>
      rw [runLoop_cons_check_error env fs a rest e hc] at h
      cases i with
      | zero => simp at h
      | succ j => simp at h
    | ok u =>
      cases u
      cases hex : (run_script env a).err with
      | some e2 =>
        rw [runLoop_cons_err env fs a rest e2 hc hex] at h ⊢
        cases i with
        | zero => simp at h
        | succ j =>
          cases j with
          | zero =>
            simp only [List.get?_cons_succ, List.get?_cons_zero,
              Option.some.injEq, Ev.spawn.injEq] at h
            subst h
            exact ⟨le_refl 1, rfl⟩
          | succ k => simp at h
      | none =>
        rw [runLoop_cons_ok env fs a rest hc hex] at h ⊢
        cases i with
        | zero => simp at h
        | succ j =>
          cases j with
          | zero =>
            simp only [List.get?_cons_succ, List.get?_cons_zero,
              Option.some.injEq, Ev.spawn.injEq] at h
            subst h
            exact ⟨le_refl 1, rfl⟩
          | succ k =>
            simp only [List.get?_cons_succ] at h
            obtain ⟨hk, hpred⟩ := ih s k h
            cases k with
            | zero => omega
            | succ k2 =>
              refine ⟨by omega, ?_⟩
              simpa using hpred

/-- Per-stage event predicate: the event is a dependency check of the given
script (with either outcome). -/
def isCheckOf (s : String) : Ev → Bool
  | .depCheck s2 _ => s2 == s
  | .spawn _ => false

/-- Per-stage event predicate: the event is a spawn of the given script. -/
def isSpawnOf (s : String) : Ev → Bool
  | .spawn s2 => s2 == s
  | .depCheck _ _ => false

lemma runLoop_events_script_mem (env : Env) (fs : FS) :
    ∀ (l : List String) (ev : Ev), ev ∈ (runLoop env fs l).events →
      ∃ a ∈ l, ev = .depCheck a false ∨ ev = .depCheck a true ∨ ev = .spawn a := by
  intro l
  induction l with
  | nil => intro ev h; simp [runLoop] at h
  | cons a rest ih =>
    intro ev h
    cases hc : check_dependencies fs a with
    | error e =>
      rw [runLoop_cons_check_error env fs a rest e hc] at h
      simp at h
      exact ⟨a, List.mem_cons_self _ _, Or.inl h⟩
    | ok u =>
      cases u
      cases hex : (run_script env a).err with
      | some e2 =>
        rw [runLoop_cons_err env fs a rest e2 hc hex] at h
        simp only [List.mem_cons, List.mem_singleton] at h
        rcases h with h | h
        · exact ⟨a, List.mem_cons_self _ _, Or.inr (Or.inl h)⟩
        · simp at h
          exact ⟨a, List.mem_cons_self _ _, Or.inr (Or.inr h)⟩
      | none =>
        rw [runLoop_cons_ok env fs a rest hc hex] at h
        simp only [List.mem_cons] at h
        rcases h with h | h | h
        · exact ⟨a, List.mem_cons_self _ _, Or.inr (Or.inl h)⟩
        · exact ⟨a, List.mem_cons_self _ _, Or.inr (Or.inr h)⟩
        · obtain ⟨b, hb, hb2⟩ := ih ev h
          exact ⟨b, List.mem_cons_of_mem _ hb, hb2⟩

lemma runLoop_countP_zero (env : Env) (fs : FS) (l : List String) (s : String)
    (hs : s ∉ l) :
    (runLoop env fs l).events.countP (isCheckOf s) = 0 ∧
    (runLoop env fs l).events.countP (isSpawnOf s) = 0 := by
  constructor <;>
  · apply List.countP_eq_zero.mpr
    intro ev hev
    obtain ⟨a, ha, hsh⟩ := runLoop_events_script_mem env fs l ev hev
    have hne : a ≠ s := fun hcon => hs (hcon ▸ ha)
    rcases hsh with rfl | rfl | rfl <;> simp [isCheckOf, isSpawnOf, hne]

lemma runLoop_countP_le (env : Env) (fs : FS) :
    ∀ (l : List String) (s : String), l.Nodup →
      (runLoop env fs l).events.countP (isCheckOf s) ≤ 1 ∧
      (runLoop env fs l).events.countP (isSpawnOf s) ≤ 1 := by
  intro l
  induction l with
  | nil => intro s _; simp [runLoop]
  | cons a rest ih =>
    intro s hnd
    obtain ⟨hna, hndr⟩ := List.nodup_cons.mp hnd
    by_cases hsa : s = a
    · subst hsa
      cases hc : check_dependencies fs s with
      | error e =>
        rw [runLoop_cons_check_error env fs s rest e hc]
        simp [List.countP_cons, isCheckOf, isSpawnOf]
      | ok u =>
        cases u
        cases hex : (run_script env s).err with
        | some e2 =>
          rw [runLoop_cons_err env fs s rest e2 hc hex]
          simp [List.countP_cons, isCheckOf, isSpawnOf]
        | none =>
          rw [runLoop_cons_ok env fs s rest hc hex]
          obtain ⟨hz1, hz2⟩ := runLoop_countP_zero env fs rest s hna
          simp [List.countP_cons, isCheckOf, isSpawnOf, hz1, hz2]
    · have hrest : (runLoop env fs rest).events.countP (isCheckOf s) ≤ 1 ∧
          (runLoop env fs rest).events.countP (isSpawnOf s) ≤ 1 := ih s hndr
      cases hc : check_dependencies fs a with
      | error e =>
        rw [runLoop_cons_check_error env fs a rest e hc]
        simp [List.countP_cons, isCheckOf, isSpawnOf, Ne.symm hsa]
      | ok u =>
        cases u
        cases hex : (run_script env a).err with
        | some e2 =>
          rw [runLoop_cons_err env fs a rest e2 hc hex]
          simp [List.countP_cons, isCheckOf, isSpawnOf, Ne.symm hsa]
        | none =>
          rw [runLoop_cons_ok env fs a rest hc hex]
          simp only [List.countP_cons, isCheckOf, isSpawnOf]
          have hba : (a == s) = false := beq_eq_false_iff_ne.mpr (Ne.symm hsa)
          simp [hba, hrest.1, hrest.2]

/-- C4: for every stage, a spawn event is immediately preceded by that stage
passing its dependency check (so the gate runs strictly before the Stage
Executor call); a stage whose check fails is never spawned at all; and with
distinct stage names no stage is checked or spawned more than once (no
retry, no waiting). -/
theorem c4_gate_before_executor (env : Env) (fs : FS) (scripts : List String)
    (s : String) :
    (∀ i, (runLoop env fs scripts).events.get? i = some (.spawn s) →
      1 ≤ i ∧
      (runLoop env fs scripts).events.get? (i - 1) = some (.depCheck s true)) ∧
    (.depCheck s false ∈ (runLoop env fs scripts).events →
      .spawn s ∉ (runLoop env fs scripts).events) ∧
    (scripts.Nodup →
      (runLoop env fs scripts).events.countP (isCheckOf s) ≤ 1 ∧
      (runLoop env fs scripts).events.countP (isSpawnOf s) ≤ 1) := by
  refine ⟨fun i h => runLoop_spawn_pred env fs scripts s i h, ?_, ?_⟩
  · intro hfalse hspawn
    obtain ⟨e, he⟩ := runLoop_depCheck_false_mem env fs scripts s hfalse
    have hok := runLoop_spawn_mem env fs scripts s hspawn
    rw [hok] at he
    exact Except.noConfusion he
  · intro hnd
    exact runLoop_countP_le env fs scripts s hnd

/-- Directory state in which all stage preconditions are satisfied. -/
def fsAll : FS :=
  ⟨true, [⟨"subject_filtered_raw.fif", 1⟩, ⟨"subject_epochs-epo.fif", 2⟩,
    ⟨"cleaned_subject_raw.fif", 3⟩]⟩

/-- C4 witness: on a concrete all-successful run of the fixed stage list, the
spawn of the first stage sits at index 1, right after its passing check at
index 0, and the per-stage check and spawn counts are at most one. -/
theorem c4_gate_before_executor_witness :
    (1 ≤ 1 ∧ (runLoop envOk fsAll scripts_to_run).events.get? 0 =
      some (.depCheck "./load_and_preprocess.py" true)) ∧
    ((runLoop envOk fsAll scripts_to_run).events.countP
        (isCheckOf "./load_and_preprocess.py") ≤ 1 ∧
      (runLoop envOk fsAll scripts_to_run).events.countP
        (isSpawnOf "./load_and_preprocess.py") ≤ 1) :=
  ⟨(c4_gate_before_executor envOk fsAll scripts_to_run
      "./load_and_preprocess.py").1 1 (by decide),
   (c4_gate_before_executor envOk fsAll scripts_to_run
      "./load_and_preprocess.py").2.2 (by decide)⟩

/-! ### Failure containment of the Pipeline Controller (claim C1) -/

lemma run_script_spawn_ok (env : Env) (s : String) (r : ProcResult)
    (h : env.spawn s = .ok r) :
    (run_script env s).result =
      some ⟨s, r.returncode, r.stdout, r.stderr, env.duration s⟩ ∧
    ((run_script env s).err = none ↔ r.returncode = 0) := by
  by_cases hrc : r.returncode = 0 <;> simp [run_script, h, hrc]

lemma runLoop_fail_at (env : Env) (fs : FS) :
    ∀ (pre post : List String) (s : String) (r : ProcResult),
      (∀ p ∈ pre, check_dependencies fs p = .ok () ∧
        ∃ rp, env.spawn p = .ok rp ∧ rp.returncode = 0) →
      check_dependencies fs s = .ok () →
      env.spawn s = .ok r →
      r.returncode ≠ 0 →
      (runLoop env fs (pre ++ s :: post)).err =
        some (.runtimeError (failedMsg s)) ∧
      (runLoop env fs (pre ++ s :: post)).results.map ExecutionResult.stage_name
        = pre ++ [s] ∧
      (runLoop env fs (pre ++ s :: post)).events
        = pre.flatMap (fun p => [.depCheck p true, .spawn p]) ++
          [.depCheck s true, .spawn s] ∧
      (runLoop env fs (pre ++ s :: post)).results.getLast?
        = some ⟨s, r.returncode, r.stdout, r.stderr, env.duration s⟩ := by
  intro pre
  induction pre with
  | nil =>
    intro post s r _ hc hsp hrc
    have hres := (run_script_spawn_ok env s r hsp).1
    have herr : (run_script env s).err = some (.runtimeError (failedMsg s)) := by
      simp [run_script, hsp, hrc]
    rw [List.nil_append, runLoop_cons_err env fs s post _ hc herr]
    simp [hres]
  | cons p pre2 ih =>
    intro post s r hpre hc hsp hrc
    obtain ⟨hcp, rp, hspp, hrcp⟩ := hpre p (List.mem_cons_self _ _)
    have hresp := (run_script_spawn_ok env p rp hspp).1
    have herrp : (run_script env p).err = none :=
      (run_script_spawn_ok env p rp hspp).2.mpr hrcp
    have ihh := ih post s r (fun q hq => hpre q (List.mem_cons_of_mem _ hq))
      hc hsp hrc
    rw [List.cons_append, runLoop_cons_ok env fs p (pre2 ++ s :: post) hcp herrp]
    have hne : (runLoop env fs (pre2 ++ s :: post)).results ≠ [] := by
      intro hcon
      have hmap := ihh.2.1
      rw [hcon] at hmap
      simp at hmap
    refine ⟨ihh.1, ?_, ?_, ?_⟩
    · simp [hresp, ihh.2.1]
    · simp [hresp, ihh.2.2.1]
    · rw [hresp]
      simp only [Option.toList_some, List.singleton_append]
      rw [show (⟨p, rp.returncode, rp.stdout, rp.stderr, env.duration p⟩ :
          ExecutionResult) :: (runLoop env fs (pre2 ++ s :: post)).results =
          [⟨p, rp.returncode, rp.stdout, rp.stderr, env.duration p⟩] ++
          (runLoop env fs (pre2 ++ s :: post)).results from rfl]
      rw [List.getLast?_append_of_ne_nil _ hne]
      exact ihh.2.2.2

/-- C1 amended: if stage s passes its gate, spawns, and exits nonzero after a
prefix of cleanly succeeding stages, the run is Failed, no later stage is
checked or spawned, and the collected ExecutionResults are exactly the
results of the stages up to and including s — a prefix of the stage list
(strict only when s is not last) whose length never exceeds the number of
stages, with the failing stage's result last, carrying its captured stderr
(non-empty whenever the stage wrote to stderr). -/
theorem c1_stage_failure (env : Env) (fs : FS) (t0 : Nat)
    (pre post : List String) (s : String) (r : ProcResult)
    (hpre : ∀ p ∈ pre, check_dependencies fs p = .ok () ∧
      ∃ rp, env.spawn p = .ok rp ∧ rp.returncode = 0)
    (hc : check_dependencies fs s = .ok ())
    (hsp : env.spawn s = .ok r)
    (hrc : r.returncode ≠ 0)
    (hnd : (pre ++ s :: post).Nodup) :
    (main_run env fs t0 (pre ++ s :: post)).run.status = .Failed ∧
    (main_run env fs t0 (pre ++ s :: post)).run.results.map
      ExecutionResult.stage_name = pre ++ [s] ∧
    (main_run env fs t0 (pre ++ s :: post)).run.results.length = pre.length + 1 ∧
    (main_run env fs t0 (pre ++ s :: post)).run.results.length ≤
      (pre ++ s :: post).length ∧
    ((main_run env fs t0 (pre ++ s :: post)).run.results.map
      ExecutionResult.stage_name <+: (pre ++ s :: post)) ∧
    (∀ p ∈ post, .spawn p ∉ (main_run env fs t0 (pre ++ s :: post)).events ∧
      ∀ b, .depCheck p b ∉ (main_run env fs t0 (pre ++ s :: post)).events) ∧
    (main_run env fs t0 (pre ++ s :: post)).run.results.getLast?
      = some ⟨s, r.returncode, r.stdout, r.stderr, env.duration s⟩ ∧
    (r.stderr ≠ "" → ∃ last,
      (main_run env fs t0 (pre ++ s :: post)).run.results.getLast? = some last ∧
      last.stderr_text ≠ "") := by
  have hcore := runLoop_fail_at env fs pre post s r hpre hc hsp hrc
  have hraised : raisedOf env fs (pre ++ s :: post) =
      some (.runtimeError (failedMsg s)) := by
    simp [raisedOf, hcore.1]
  have hstatus : (main_run env fs t0 (pre ++ s :: post)).run.status = .Failed := by
    simp only [main_run, hraised]
  have hresults : (main_run env fs t0 (pre ++ s :: post)).run.results
      = (runLoop env fs (pre ++ s :: post)).results := by
    simp only [main_run, hraised]
  have hevents : (main_run env fs t0 (pre ++ s :: post)).events
      = (runLoop env fs (pre ++ s :: post)).events := by
    simp only [main_run, hraised]
  have hlen : (main_run env fs t0 (pre ++ s :: post)).run.results.length
      = pre.length + 1 := by
    have hmap := congrArg List.length hcore.2.1
    rw [List.length_map, List.length_append] at hmap
    rw [hresults, hmap]
    simp
  have hsplit : pre ++ s :: post = (pre ++ [s]) ++ post := by simp
  obtain ⟨hndpre, hndrest⟩ := List.nodup_append.mp hnd
  refine ⟨hstatus, by rw [hresults]; exact hcore.2.1, hlen, ?_, ?_, ?_, ?_, ?_⟩
  · rw [hlen, List.length_append, List.length_cons]
    omega
  · rw [hresults, hcore.2.1, hsplit]
    exact List.prefix_append _ _
  · intro p hp
    have hpnotpre : p ∉ pre := by
      intro hcon
      exact (hndrest.2 hcon) (List.mem_cons_of_mem _ hp)
    have hpnots : p ≠ s := by
      intro hcon
      subst hcon
      exact (List.nodup_cons.mp hndrest.1).1 hp
    constructor
    · intro hmem
      rw [hevents, hcore.2.2.1] at hmem
      simp only [List.mem_append, List.mem_flatMap, List.mem_cons,
        List.not_mem_nil, or_false] at hmem
      rcases hmem with ⟨a, ha, hev | hev⟩ | hev | hev
      · exact Ev.noConfusion hev
      · simp only [Ev.spawn.injEq] at hev
        exact hpnotpre (hev ▸ ha)
      · exact Ev.noConfusion hev
      · simp only [Ev.spawn.injEq] at hev
        exact hpnots hev
    · intro b hmem
      rw [hevents, hcore.2.2.1] at hmem
      simp only [List.mem_append, List.mem_flatMap, List.mem_cons,
        List.not_mem_nil, or_false] at hmem
      rcases hmem with ⟨a, ha, hev | hev⟩ | hev | hev
      · simp only [Ev.depCheck.injEq] at hev
        exact hpnotpre (hev.1 ▸ ha)
      · exact Ev.noConfusion hev
      · simp only [Ev.depCheck.injEq] at hev
        exact hpnots hev.1
      · exact Ev.noConfusion hev
  · rw [hresults]
    exact hcore.2.2.2
  · intro hstderr
    exact ⟨⟨s, r.returncode, r.stdout, r.stderr, env.duration s⟩,
      by rw [hresults]; exact hcore.2.2.2, hstderr⟩

/-- Environment in which the third stage, ica_analysis, exits with code 1 and
writes to stderr, and every other stage exits cleanly. -/
def envC1 : Env :=
  ⟨fun s2 => if s2 == "./ica_analysis.py" then .ok ⟨1, "ica out", "ica crash"⟩
    else .ok ⟨0, "out", ""⟩, fun _ => 1, .ok ()⟩

/-- C1 witness: on the fixed stage list with ica_analysis failing third, the
run is Failed, exactly the first three stages have results, and the result
count is bounded by the stage count. -/
theorem c1_stage_failure_witness :
    (main_run envC1 fsAll 0 scripts_to_run).run.status = .Failed ∧
    (main_run envC1 fsAll 0 scripts_to_run).run.results.map
      ExecutionResult.stage_name =
      ["./load_and_preprocess.py", "./extract_epochs.py"] ++ ["./ica_analysis.py"] ∧
    (main_run envC1 fsAll 0 scripts_to_run).run.results.length ≤
      scripts_to_run.length := by
  have h := c1_stage_failure envC1 fsAll 0
    ["./load_and_preprocess.py", "./extract_epochs.py"]
    ["./erp_analysis.py", "./psd_analysis.py", "./visualizations.py",
      "./source_localization.py"]
    "./ica_analysis.py" ⟨1, "ica out", "ica crash"⟩
    (by
      intro p hp
      simp only [List.mem_cons, List.not_mem_nil, or_false] at hp
      rcases hp with rfl | rfl
      · exact ⟨rfl, ⟨0, "out", ""⟩, rfl, rfl⟩
      · exact ⟨rfl, ⟨0, "out", ""⟩, rfl, rfl⟩)
    rfl rfl (by decide) (by decide)
  exact ⟨h.1, h.2.1, h.2.2.2.1⟩

/-- Environment in which only the last stage, source_localization, fails. -/
def envLast : Env :=
  ⟨fun s2 => if s2 == "./source_localization.py" then .ok ⟨1, "", "bad input"⟩
    else .ok ⟨0, "", ""⟩, fun _ => 1, .ok ()⟩

/-- C1 counterexample: when the last stage fails, the collected results cover
the whole stage list, so the result-name sequence is a prefix but not a
strict prefix of the stage list, refuting the claimed strictness. -/
theorem c1_strict_prefix_counterexample :
    (main envLast fsAll 0).run.status = .Failed ∧
    (main envLast fsAll 0).run.results.map ExecutionResult.stage_name =
      scripts_to_run ∧
    ¬((main envLast fsAll 0).run.results.map ExecutionResult.stage_name <+:
        scripts_to_run ∧
      (main envLast fsAll 0).run.results.map ExecutionResult.stage_name ≠
        scripts_to_run) := by
  refine ⟨by decide, by decide, ?_⟩
  rintro ⟨-, hne⟩
  exact hne (by decide)

/-! ### Error propagation through the Pipeline Controller (claim C2) -/

lemma main_run_events (env : Env) (fs : FS) (t0 : Nat) (scripts : List String) :
    (main_run env fs t0 scripts).events = (runLoop env fs scripts).events := by
  cases hr : raisedOf env fs scripts with
  | none => simp only [main_run, hr]
  | some e => cases e <;> simp only [main_run, hr]

lemma main_run_results (env : Env) (fs : FS) (t0 : Nat) (scripts : List String) :
    (main_run env fs t0 scripts).run.results = (runLoop env fs scripts).results := by
  cases hr : raisedOf env fs scripts with
  | none => simp only [main_run, hr]
  | some e => cases e <;> simp only [main_run, hr]

lemma main_run_logs_mem (env : Env) (fs : FS) (t0 : Nat) (scripts : List String)
    (e : LogEntry) (h : e ∈ (runLoop env fs scripts).logs) :
    e ∈ (main_run env fs t0 scripts).logs := by
  cases hr : raisedOf env fs scripts with
  | none =>
    simp only [main_run, hr]
    exact List.mem_cons_of_mem _ (List.mem_append_left _ h)
  | some e2 =>
    cases e2 <;>
    · simp only [main_run, hr]
      exact List.mem_cons_of_mem _ (List.mem_append_left _ h)

/-- C2 amended: every error kind aborts the run with status Failed, none is
silently swallowed, and none triggers a retry, but the controller converts
only errors raised as RuntimeError into a Failed run with a logged reason:
StageFailure (nonzero exit), and the MissingArtifact raised by the erp/psd
gate whose hard-coded cleaned_subject_raw.fif path is absent.  The
MissingArtifact raised by the suffix locator (the extract_epochs and
ica_analysis gates), SpawnFailure, and ConfigurationError surface as
FileNotFoundError/OSError, which the except-RuntimeError clause does not
catch, so they escape main uncaught with no conversion line (the finalizer
still appends the total-duration record). -/
theorem c2_propagation (env : Env) (fs : FS) (t0 : Nat) (scripts : List String) :
    (∀ m, (runLoop env fs scripts).err = some (.runtimeError m) →
      (main_run env fs t0 scripts).uncaught = none ∧
      (main_run env fs t0 scripts).run.status = .Failed ∧
      LogEntry.mk .error (stoppedMsg m) ∈ (main_run env fs t0 scripts).logs) ∧
    (∀ e, (runLoop env fs scripts).err = some e → (∀ m, e ≠ .runtimeError m) →
      (main_run env fs t0 scripts).uncaught = some e ∧
      (main_run env fs t0 scripts).run.status = .Failed ∧
      (main_run env fs t0 scripts).logs =
        LogEntry.mk .info "Pipeline execution started." ::
          (runLoop env fs scripts).logs ++
          [LogEntry.mk .info
            (totalMsg ((main_run env fs t0 scripts).run.end_time - t0))]) ∧
    (∀ s r, env.spawn s = .ok r → r.returncode ≠ 0 →
      (run_script env s).err = some (.runtimeError (failedMsg s))) ∧
    (∀ s e, env.spawn s = .error e → (run_script env s).err = some e) ∧
    (∀ script, (script = "./extract_epochs.py" ∨ script = "./ica_analysis.py") →
      ∀ e, check_dependencies fs script = .error e →
        ∃ m, e = .fileNotFoundError m) ∧
    (∀ script, (script = "./erp_analysis.py" ∨ script = "./psd_analysis.py") →
      path_exists fs (directory ++ "cleaned_subject_raw.fif") = false →
      check_dependencies fs script =
        .error (.runtimeError ("ICA cleaned data (" ++
          (directory ++ "cleaned_subject_raw.fif") ++
          ") not found. Cannot run " ++ script))) ∧
    (fs.dirExists = false → ∀ ext, get_latest_file fs ext =
      .error (.fileNotFoundError ("No such file or directory: " ++ directory))) ∧
    ((runLoop env fs scripts).err ≠ none →
      (main_run env fs t0 scripts).run.status = .Failed) ∧
    (scripts.Nodup → ∀ s,
      (main_run env fs t0 scripts).events.countP (isCheckOf s) ≤ 1 ∧
      (main_run env fs t0 scripts).events.countP (isSpawnOf s) ≤ 1) := by
  refine ⟨?_, ?_, ?_, ?_, ?_, ?_, ?_, ?_, ?_⟩
  · intro m h
    have hraised : raisedOf env fs scripts = some (.runtimeError m) := by
      simp [raisedOf, h]
    refine ⟨by simp only [main_run, hraised], by simp only [main_run, hraised], ?_⟩
    simp only [main_run, hraised]
    simp
  · intro e h hne
    have hraised : raisedOf env fs scripts = some e := by
      simp [raisedOf, h]
    cases e with
    | runtimeError m => exact absurd rfl (hne m)
    | fileNotFoundError m =>
      exact ⟨by simp only [main_run, hraised], by simp only [main_run, hraised],
        by simp only [main_run, hraised]⟩
    | osError m =>
      exact ⟨by simp only [main_run, hraised], by simp only [main_run, hraised],
        by simp only [main_run, hraised]⟩
  · intro s r hsp hrc
    simp [run_script, hsp, hrc]
  · intro s e hsp
    simp [run_script, hsp]
  · rintro script (rfl | rfl) e he
    · simp only [check_dependencies] at he
      rw [if_pos (by decide)] at he
      cases hg : get_latest_file fs "_filtered_raw.fif" with
      | error ex =>
        rw [hg] at he
        simp only [Except.error.injEq] at he
        subst he
        exact get_latest_file_error_shape fs _ ex hg
      | ok ff =>
        rw [hg] at he
        simp [get_latest_file_ok_exists fs _ _ hg] at he
    · simp only [check_dependencies] at he
      rw [if_neg (by decide), if_pos (by decide)] at he
      cases hg : get_latest_file fs "_epochs-epo.fif" with
      | error ex =>
        rw [hg] at he
        simp only [Except.error.injEq] at he
        subst he
        exact get_latest_file_error_shape fs _ ex hg
      | ok ff =>
        rw [hg] at he
        simp [get_latest_file_ok_exists fs _ _ hg] at he
  · rintro script (rfl | rfl) hpe
    · simp only [check_dependencies]
      rw [if_neg (by decide), if_neg (by decide), if_pos (by decide)]
      simp [hpe]
    · simp only [check_dependencies]
      rw [if_neg (by decide), if_neg (by decide), if_pos (by decide)]
      simp [hpe]
  · intro hdir ext
    simp only [get_latest_file, listdir, hdir, Bool.false_eq_true, if_false]
  · intro hne
    cases herr : (runLoop env fs scripts).err with
    | none => exact absurd herr hne
    | some e =>
      have hraised : raisedOf env fs scripts = some e := by
        simp [raisedOf, herr]
      cases e <;> simp only [main_run, hraised]
  · intro hnd s
    rw [main_run_events]
    exact runLoop_countP_le env fs scripts s hnd

/-- Directory state holding the filtered and epochs artifacts but not the
hard-coded cleaned_subject_raw.fif that the erp/psd gate checks for. -/
def fsNoCleaned : FS :=
  ⟨true, [⟨"a_filtered_raw.fif", 1⟩, ⟨"b_epochs-epo.fif", 2⟩]⟩

/-- C2 witness: with cleaned_subject_raw.fif absent, the erp_analysis gate
raises a RuntimeError MissingArtifact that the controller catches and
converts into a Failed run with the logged stop line (nothing escapes
uncaught), and the stage is checked at most once. -/
theorem c2_propagation_witness :
    ((main_run envOk fsNoCleaned 0 scripts_to_run).uncaught = none ∧
      (main_run envOk fsNoCleaned 0 scripts_to_run).run.status = .Failed ∧
      LogEntry.mk .error (stoppedMsg ("ICA cleaned data (" ++
        (directory ++ "cleaned_subject_raw.fif") ++
        ") not found. Cannot run " ++ "./erp_analysis.py")) ∈
        (main_run envOk fsNoCleaned 0 scripts_to_run).logs) ∧
    check_dependencies fsNoCleaned "./erp_analysis.py" =
      .error (.runtimeError ("ICA cleaned data (" ++
        (directory ++ "cleaned_subject_raw.fif") ++
        ") not found. Cannot run " ++ "./erp_analysis.py")) ∧
    ((main_run envOk fsNoCleaned 0 scripts_to_run).events.countP
      (isCheckOf "./erp_analysis.py") ≤ 1) :=
  ⟨(c2_propagation envOk fsNoCleaned 0 scripts_to_run).1 _ (by decide),
   (c2_propagation envOk fsNoCleaned 0 scripts_to_run).2.2.2.2.2.1
     "./erp_analysis.py" (Or.inl rfl) (by decide),
   ((c2_propagation envOk fsNoCleaned 0 scripts_to_run).2.2.2.2.2.2.2.2
     (by decide) "./erp_analysis.py").1⟩

/-- C2 counterexample: with the artifact directory empty, stage 2 raises the
MissingArtifact FileNotFoundError, which is not converted into a logged
Failed reason: it escapes main uncaught and every log record of the run is
at level INFO (no error line at all). -/
theorem c2_uncaught_counterexample :
    (main envOk ⟨true, []⟩ 0).uncaught =
      some (.fileNotFoundError "No files with extension _filtered_raw.fif found.") ∧
    ((main envOk ⟨true, []⟩ 0).logs.all fun e => e.level == Level.info) = true := by
  exact ⟨by rfl, by decide⟩

/-! ### Missing configured directory (claim C5) -/

/-- C5 amended: when the configured artifact directory does not exist, the
condition surfaces only at the first Artifact Locator call — the dependency
check of stage 2 (extract_epochs) — as a FileNotFoundError of the same
constructor as the artifact-not-found outcome (distinguishable only by
message), and it escapes main uncaught; stage 1, which has no dependency
check, has already been spawned and completed by then, so the run does not
abort before any stage runs. -/
theorem c5_missing_directory (env : Env) (fs : FS) (t0 : Nat) (r : ProcResult)
    (hdir : fs.dirExists = false)
    (h1 : env.spawn "./load_and_preprocess.py" = .ok r)
    (hrc : r.returncode = 0) :
    (main env fs t0).uncaught =
      some (.fileNotFoundError ("No such file or directory: " ++ directory)) ∧
    (main env fs t0).run.status = .Failed ∧
    .spawn "./load_and_preprocess.py" ∈ (main env fs t0).events ∧
    .depCheck "./extract_epochs.py" false ∈ (main env fs t0).events ∧
    .spawn "./extract_epochs.py" ∉ (main env fs t0).events ∧
    (main env fs t0).run.results.length = 1 ∧
    get_latest_file ⟨true, []⟩ "_filtered_raw.fif" =
      .error (.fileNotFoundError "No files with extension _filtered_raw.fif found.") := by
  have hc1 : check_dependencies fs "./load_and_preprocess.py" = .ok () := rfl
  have herr1 : (run_script env "./load_and_preprocess.py").err = none :=
    (run_script_spawn_ok env "./load_and_preprocess.py" r h1).2.mpr hrc
  have hres1 := (run_script_spawn_ok env "./load_and_preprocess.py" r h1).1
  have hglf : get_latest_file fs "_filtered_raw.fif" =
      .error (.fileNotFoundError ("No such file or directory: " ++ directory)) := by
    simp only [get_latest_file, listdir, hdir, Bool.false_eq_true, if_false]
  have hc2 : check_dependencies fs "./extract_epochs.py" =
      .error (.fileNotFoundError ("No such file or directory: " ++ directory)) := by
    simp only [check_dependencies]
    rw [if_pos (by decide)]
    rw [hglf]
  have h2 : runLoop env fs
      ["./extract_epochs.py", "./ica_analysis.py", "./erp_analysis.py",
        "./psd_analysis.py", "./visualizations.py", "./source_localization.py"] =
      ⟨[], [], [.depCheck "./extract_epochs.py" false], 0,
        some (.fileNotFoundError ("No such file or directory: " ++ directory))⟩ :=
    runLoop_cons_check_error env fs _ _ _ hc2
  have hloop : runLoop env fs scripts_to_run =
      ⟨(run_script env "./load_and_preprocess.py").result.toList,
        (run_script env "./load_and_preprocess.py").logs,
        [.depCheck "./load_and_preprocess.py" true, .spawn "./load_and_preprocess.py",
          .depCheck "./extract_epochs.py" false],
        ((run_script env "./load_and_preprocess.py").result.map
          ExecutionResult.duration).getD 0,
        some (.fileNotFoundError ("No such file or directory: " ++ directory))⟩ := by
    show runLoop env fs ("./load_and_preprocess.py" ::
      ["./extract_epochs.py", "./ica_analysis.py", "./erp_analysis.py",
        "./psd_analysis.py", "./visualizations.py", "./source_localization.py"]) = _
    rw [runLoop_cons_ok env fs _ _ hc1 herr1, h2]
    simp
  have hraised : raisedOf env fs scripts_to_run =
      some (.fileNotFoundError ("No such file or directory: " ++ directory)) := by
    simp [raisedOf, hloop]
  refine ⟨?_, ?_, ?_, ?_, ?_, ?_, by rfl⟩
  · simp only [main, main_run, hraised]
  · simp only [main, main_run, hraised]
  · rw [show (main env fs t0).events = (runLoop env fs scripts_to_run).events from
      main_run_events env fs t0 scripts_to_run, hloop]
    simp
  · rw [show (main env fs t0).events = (runLoop env fs scripts_to_run).events from
      main_run_events env fs t0 scripts_to_run, hloop]
    simp
  · rw [show (main env fs t0).events = (runLoop env fs scripts_to_run).events from
      main_run_events env fs t0 scripts_to_run, hloop]
    simp
  · rw [show (main env fs t0).run.results = (runLoop env fs scripts_to_run).results
      from main_run_results env fs t0 scripts_to_run, hloop]
    simp [hres1]

/-- C5 witness: a concrete run with the configured directory absent and a
clean first stage. -/
theorem c5_missing_directory_witness :
    (main envOk ⟨false, []⟩ 0).uncaught =
      some (.fileNotFoundError ("No such file or directory: " ++ directory)) ∧
    (main envOk ⟨false, []⟩ 0).run.status = .Failed ∧
    .spawn "./load_and_preprocess.py" ∈ (main envOk ⟨false, []⟩ 0).events ∧
    .depCheck "./extract_epochs.py" false ∈ (main envOk ⟨false, []⟩ 0).events ∧
    .spawn "./extract_epochs.py" ∉ (main envOk ⟨false, []⟩ 0).events ∧
    (main envOk ⟨false, []⟩ 0).run.results.length = 1 ∧
    get_latest_file ⟨true, []⟩ "_filtered_raw.fif" =
      .error (.fileNotFoundError "No files with extension _filtered_raw.fif found.") :=
  c5_missing_directory envOk ⟨false, []⟩ 0 ⟨0, "ok out", ""⟩ rfl rfl rfl

/-- C5 counterexample: with the configured directory absent, the first stage
is nevertheless spawned and produces a result before the missing directory
surfaces (uncaught, as a FileNotFoundError like artifact-not-found), so the
run does not abort before any stage runs. -/
theorem c5_stage_ran_counterexample :
    (main envOk ⟨false, []⟩ 0).uncaught =
      some (.fileNotFoundError ("No such file or directory: " ++ directory)) ∧
    .spawn "./load_and_preprocess.py" ∈ (main envOk ⟨false, []⟩ 0).events ∧
    (main envOk ⟨false, []⟩ 0).run.results.length = 1 := by
  refine ⟨by rfl, by decide, by rfl⟩

/-! ### Run Logger content (claim C8) -/

lemma dispatch_all (e : LogEntry) : dispatch logConfig e = logConfig.handlers := by
  cases h : e.level <;> simp [dispatch, logConfig, levelNum, h]

lemma run_script_logs_content (env : Env) (a : String) (r : ExecutionResult)
    (h : (run_script env a).result = some r) :
    LogEntry.mk .info (startMsg r.stage_name) ∈ (run_script env a).logs ∧
    LogEntry.mk .info r.stdout_text ∈ (run_script env a).logs ∧
    (r.exit_code ≠ 0 → LogEntry.mk .error r.stderr_text ∈ (run_script env a).logs) ∧
    (r.exit_code = 0 →
      LogEntry.mk .info (finishedMsg r.stage_name r.duration) ∈
        (run_script env a).logs) := by
  cases hsp : env.spawn a with
  | error e => simp [run_script, hsp] at h
  | ok pr =>
    have hres := (run_script_spawn_ok env a pr hsp).1
    rw [h] at hres
    have hr : r = ⟨a, pr.returncode, pr.stdout, pr.stderr, env.duration a⟩ :=
      Option.some.inj hres
    subst hr
    by_cases hrc : pr.returncode = 0
    · simp [run_script, hsp, hrc]
    · simp [run_script, hsp, hrc]

lemma runLoop_logs_content (env : Env) (fs : FS) :
    ∀ (l : List String), ∀ r ∈ (runLoop env fs l).results,
      LogEntry.mk .info (startMsg r.stage_name) ∈ (runLoop env fs l).logs ∧
      LogEntry.mk .info r.stdout_text ∈ (runLoop env fs l).logs ∧
      (r.exit_code ≠ 0 →
        LogEntry.mk .error r.stderr_text ∈ (runLoop env fs l).logs) ∧
      (r.exit_code = 0 →
        LogEntry.mk .info (finishedMsg r.stage_name r.duration) ∈
          (runLoop env fs l).logs) := by
  intro l
  induction l with
  | nil => intro r hr; simp [runLoop] at hr
  | cons a rest ih =>
    intro r hr
    cases hc : check_dependencies fs a with
    | error e =>
      rw [runLoop_cons_check_error env fs a rest e hc] at hr
      simp at hr
    | ok u =>
      cases u
      cases hex : (run_script env a).err with
      | some e2 =>
        rw [runLoop_cons_err env fs a rest e2 hc hex] at hr ⊢
        cases hres : (run_script env a).result with
        | none => rw [hres] at hr; simp at hr
        | some rr =>
          rw [hres] at hr
          simp only [Option.toList_some, List.mem_singleton] at hr
          subst hr
          exact run_script_logs_content env a r hres
      | none =>
        rw [runLoop_cons_ok env fs a rest hc hex] at hr ⊢
        rcases List.mem_append.mp hr with hr1 | hr2
        · cases hres : (run_script env a).result with
          | none => rw [hres] at hr1; simp at hr1
          | some rr =>
            rw [hres] at hr1
            simp only [Option.toList_some, List.mem_singleton] at hr1
            subst hr1
            obtain ⟨ha, hb, hcc, hd⟩ := run_script_logs_content env a r hres
            exact ⟨List.mem_append_left _ ha, List.mem_append_left _ hb,
              fun hx => List.mem_append_left _ (hcc hx),
              fun hx => List.mem_append_left _ (hd hx)⟩
        · obtain ⟨ha, hb, hcc, hd⟩ := ih r hr2
          exact ⟨List.mem_append_right _ ha, List.mem_append_right _ hb,
            fun hx => List.mem_append_right _ (hcc hx),
            fun hx => List.mem_append_right _ (hd hx)⟩

lemma main_run_final_mem (env : Env) (fs : FS) (t0 : Nat) (scripts : List String) :
    LogEntry.mk .info
      (totalMsg ((main_run env fs t0 scripts).run.end_time - t0)) ∈
      (main_run env fs t0 scripts).logs := by
  cases hr : raisedOf env fs scripts with
  | none =>
    simp only [main_run, hr]
    simp
  | some e =>
    cases e <;>
    · simp only [main_run, hr]
      simp

/-- C8 amended: the Run Logger is configured once at start with a durable
file target (pipeline_log.txt, truncated then appended to) and a console
stream, and every emitted severity-tagged record is dispatched to both; for
every attempted stage the log contains the stage-start line and the
captured stdout, the captured stderr appears for a failing stage (not for a
succeeding one), the result line with duration appears for a succeeding
stage (not for a failing one), and every run ends with the total-duration
summary record. -/
theorem c8_logging (env : Env) (fs : FS) (t0 : Nat) (scripts : List String) :
    logConfig.handlers = [Handler.fileHandler log_file "w", Handler.streamHandler] ∧
    (∀ e ∈ (main_run env fs t0 scripts).logs,
      dispatch logConfig e = logConfig.handlers) ∧
    (∀ r ∈ (main_run env fs t0 scripts).run.results,
      LogEntry.mk .info (startMsg r.stage_name) ∈
        (main_run env fs t0 scripts).logs ∧
      LogEntry.mk .info r.stdout_text ∈ (main_run env fs t0 scripts).logs ∧
      (r.exit_code ≠ 0 →
        LogEntry.mk .error r.stderr_text ∈ (main_run env fs t0 scripts).logs) ∧
      (r.exit_code = 0 →
        LogEntry.mk .info (finishedMsg r.stage_name r.duration) ∈
          (main_run env fs t0 scripts).logs)) ∧
    LogEntry.mk .info
      (totalMsg ((main_run env fs t0 scripts).run.end_time - t0)) ∈
      (main_run env fs t0 scripts).logs := by
  refine ⟨rfl, fun e _ => dispatch_all e, ?_, main_run_final_mem env fs t0 scripts⟩
  intro r hr
  rw [main_run_results] at hr
  obtain ⟨ha, hb, hcc, hd⟩ := runLoop_logs_content env fs scripts r hr
  exact ⟨main_run_logs_mem env fs t0 scripts _ ha,
    main_run_logs_mem env fs t0 scripts _ hb,
    fun hx => main_run_logs_mem env fs t0 scripts _ (hcc hx),
    fun hx => main_run_logs_mem env fs t0 scripts _ (hd hx)⟩

/-- C8 witness: the logging guarantees applied to the first stage of a
concrete all-successful run. -/
theorem c8_logging_witness :
    LogEntry.mk .info (startMsg "./load_and_preprocess.py") ∈
      (main_run envOk fsAll 0 scripts_to_run).logs ∧
    LogEntry.mk .info "ok out" ∈ (main_run envOk fsAll 0 scripts_to_run).logs ∧
    LogEntry.mk .info (finishedMsg "./load_and_preprocess.py" 1) ∈
      (main_run envOk fsAll 0 scripts_to_run).logs := by
  have h := (c8_logging envOk fsAll 0 scripts_to_run).2.2.1
    ⟨"./load_and_preprocess.py", 0, "ok out", "", 1⟩ (by decide)
  exact ⟨h.1, h.2.1, h.2.2.2 rfl⟩

/-- Environment in which the first stage succeeds but writes to stderr, and
the second stage fails. -/
def envC8 : Env :=
  ⟨fun s2 => if s2 == "./load_and_preprocess.py" then .ok ⟨0, "out1", "warn"⟩
    else .ok ⟨1, "", "crash"⟩, fun _ => 3, .ok ()⟩

/-- C8 counterexample: the captured stderr of the succeeding first stage
never reaches the log, and the failing second stage gets no result line with
its duration — refuting the claim that the log includes, for every attempted
stage, the captured stdout/stderr and the stage result with duration. -/
theorem c8_logging_counterexample :
    (main envC8 fsAll 0).run.results.map ExecutionResult.stage_name =
      ["./load_and_preprocess.py", "./extract_epochs.py"] ∧
    (main envC8 fsAll 0).run.results.get? 0 =
      some ⟨"./load_and_preprocess.py", 0, "out1", "warn", 3⟩ ∧
    ((main envC8 fsAll 0).logs.all fun e => e.msg != "warn") = true ∧
    (main envC8 fsAll 0).run.results.get? 1 =
      some ⟨"./extract_epochs.py", 1, "", "crash", 3⟩ ∧
    ((main envC8 fsAll 0).logs.all fun e =>
      e.msg != finishedMsg "./extract_epochs.py" 3) = true := by
  refine ⟨by decide, by rfl, by decide, by rfl, by decide⟩

/-! ### The guaranteed finalizer of main (claim C7) -/

lemma getLast?_cons_append_pair {α : Type} (a b c : α) (l : List α) :
    (a :: (l ++ [b, c])).getLast? = some c := by
  have h : a :: (l ++ [b, c]) = (a :: (l ++ [b])) ++ [c] := by simp
  rw [h, List.getLast?_concat]

lemma getLast?_cons_append_one {α : Type} (a c : α) (l : List α) :
    (a :: (l ++ [c])).getLast? = some c := by
  have h : a :: (l ++ [c]) = (a :: l) ++ [c] := by simp
  rw [h, List.getLast?_concat]

/-- C7: on every run, whatever the outcome (completed, caught stage failure,
or an uncaught exception escaping main), the controller records the start
and end times with end at least start, and the very last emitted log record
is the final summary line carrying the total duration. -/
theorem c7_finalizer (env : Env) (fs : FS) (t0 : Nat) (scripts : List String) :
    (main_run env fs t0 scripts).run.start_time = t0 ∧
    (main_run env fs t0 scripts).run.start_time ≤
      (main_run env fs t0 scripts).run.end_time ∧
    (main_run env fs t0 scripts).logs.getLast? =
      some ⟨.info, totalMsg ((main_run env fs t0 scripts).run.end_time -
        (main_run env fs t0 scripts).run.start_time)⟩ := by
  cases hr : raisedOf env fs scripts with
  | none =>
    simp only [main_run, hr]
    exact ⟨trivial, Nat.le_add_right _ _, getLast?_cons_append_pair _ _ _ _⟩
  | some e =>
    cases e with
    | runtimeError m =>
      simp only [main_run, hr]
      exact ⟨trivial, Nat.le_add_right _ _, getLast?_cons_append_pair _ _ _ _⟩
    | fileNotFoundError m =>
      simp only [main_run, hr]
      exact ⟨trivial, Nat.le_add_right _ _, getLast?_cons_append_one _ _ _⟩
    | osError m =>
      simp only [main_run, hr]
      exact ⟨trivial, Nat.le_add_right _ _, getLast?_cons_append_one _ _ _⟩

end PipelineRunner
